import Mathlib

set_option maxRecDepth 20000

/-!
Shallow embedding of the scroll-driven frame-sequence renderer in
`src/App.tsx` (zenith-x landing page), together with proofs of the
behavioural properties stated in the specification.

Conventions of the embedding:
* JavaScript numbers are modelled as exact rationals (`ℚ`).
* `Math.round` is modelled as `fun q => Int.floor (q + 1/2)` (JS rounds
  half-way cases towards positive infinity).
* The sparse JS array `loadedImages` is modelled as a `List (Option Img)`;
  index assignment `arr[i] = v` extends the array with holes exactly as in
  JS (`setSlot`).
* The motion-library `useTransform(value, inputs, outputs)` is, per its
  documented default (`clamp: true`), the piecewise-linear interpolation
  through the breakpoint pairs, clamped at both ends (`piecewise`).
* Canvas 2D side effects are reified as a list of `CanvasOp` values; the
  canvas bitmap is the free fold of the operations applied so far
  (`CanvasContent`, `runOps`).
* The `async`/`await` batch loop is single-threaded with a full barrier
  between batches, so it is embedded as a structurally recursive loop (the
  fuel argument is a loop bound, chosen large enough that it is never
  exhausted for `N = 144`).
-/

namespace ZenithX

/-- A decoded `HTMLImageElement` as the renderer sees it: its intrinsic
dimensions and whether its load failed (request state broken). -/
structure Img where
  width : ℚ
  height : ℚ
  broken : Bool
deriving DecidableEq

/-- Length of the frame sequence: `imagePaths.length` = 144 in the source. -/
def N : ℕ := 144

/-- Batch size of the preloader (`const BATCH_SIZE = 5`). -/
def BATCH_SIZE : ℕ := 5

/-- JS `String.prototype.padStart(len, c)`. -/
def padStart (s : String) (len : ℕ) (c : Char) : String :=
  String.mk (List.replicate (len - s.length) c) ++ s

/-- The frame path list from the source: an array of length 144 whose entry
at index i is the base directory followed by i+1 zero-padded to five digits
and the png extension. -/
def imagePaths : List String :=
  (List.range 144).map
    (fun i => "/headphone-seqs/" ++ padStart (toString (i + 1)) 5 '0' ++ ".png")

/-- JS `Math.round`: rounds to the nearest integer, half-way cases toward
positive infinity. -/
def jsRound (q : ℚ) : ℤ := Int.floor (q + 1 / 2)

/-- Piecewise-linear interpolation through breakpoint pairs, clamped at both
ends: the semantics of `useTransform(v, [x1,...,xn], [y1,...,yn])` with the
default `clamp: true` for numeric outputs. -/
def piecewise : List (ℚ × ℚ) → ℚ → ℚ
  | [], _ => 0
  | [(_, y)], _ => y
  | (x1, y1) :: (x2, y2) :: rest, p =>
    if p ≤ x1 then y1
    else if p ≤ x2 then y1 + (p - x1) / (x2 - x1) * (y2 - y1)
    else piecewise ((x2, y2) :: rest) p

/-- `frameIndex = useTransform(smoothProgress, [0, 1], [0, 143])`. -/
def frameIndexValue (p : ℚ) : ℚ := piecewise [(0, 0), (1, 143)] p

/-- The integer frame index actually used for rendering: `render` applies
`Math.round` to the incoming motion value. -/
def selectedFrame (p : ℚ) : ℤ := jsRound (frameIndexValue p)

/-- `useTransform(smoothProgress, [0, 0.15, 0.25, 0.35], [0, 1, 1, 0])`. -/
def text1Opacity (p : ℚ) : ℚ :=
  piecewise [(0, 0), (0.15, 1), (0.25, 1), (0.35, 0)] p

/-- `useTransform(smoothProgress, [0, 0.15, 0.35], [50, 0, -50])`. -/
def text1Y (p : ℚ) : ℚ := piecewise [(0, 50), (0.15, 0), (0.35, -50)] p

/-- `useTransform(smoothProgress, [0.35, 0.5, 0.6, 0.7], [0, 1, 1, 0])`. -/
def text2Opacity (p : ℚ) : ℚ :=
  piecewise [(0.35, 0), (0.5, 1), (0.6, 1), (0.7, 0)] p

/-- `useTransform(smoothProgress, [0.35, 0.5, 0.7], [50, 0, -50])`. -/
def text2Y (p : ℚ) : ℚ := piecewise [(0.35, 50), (0.5, 0), (0.7, -50)] p

/-- `useTransform(smoothProgress, [0.7, 0.85, 0.95, 1], [0, 1, 1, 0])`. -/
def text3Opacity (p : ℚ) : ℚ :=
  piecewise [(0.7, 0), (0.85, 1), (0.95, 1), (1, 0)] p

/-- `useTransform(smoothProgress, [0.7, 0.85, 1], [50, 0, -50])`. -/
def text3Y (p : ℚ) : ℚ := piecewise [(0.7, 50), (0.85, 0), (1, -50)] p

/-- One canvas-2D drawing call issued by `render`. -/
inductive CanvasOp where
  | clearRect (x y w h : ℚ)
  | drawImage (img : Img) (sx sy sw sh dx dy dw dh : ℚ)
deriving DecidableEq

/-- The canvas bitmap, abstractly: the initial content together with the
drawing calls applied to it so far. -/
inductive CanvasContent where
  | initial : CanvasContent
  | afterOp : CanvasContent → CanvasOp → CanvasContent
deriving DecidableEq

/-- Apply a list of drawing calls to canvas content. -/
def runOps (c : CanvasContent) (ops : List CanvasOp) : CanvasContent :=
  ops.foldl CanvasContent.afterOp c

/-- JS array read `arr[i]`: out-of-range (including negative) indices and
holes both yield `undefined`, modelled as `none`. -/
def arrGet (arr : List (Option Img)) (i : ℤ) : Option Img :=
  if 0 ≤ i then arr.getD i.toNat none else none

/-- The "cover" scale factor computed by `render`:
`Math.max(canvas.width / img.width, canvas.height / img.height)`. -/
def coverScale (cw ch iw ih : ℚ) : ℚ := max (cw / iw) (ch / ih)

/-- The `render` closure from the canvas effect: look up
`images[Math.round(index)]`; if it is absent, return without any drawing
call; otherwise clear the canvas and draw the image with cover-fit scaling
and centering. The returned list is the sequence of drawing calls issued. -/
def render (images : List (Option Img)) (cw ch : ℚ) (index : ℚ) :
    List CanvasOp :=
  match arrGet images (jsRound index) with
  | none => []
  | some img =>
    let hScale := cw / img.width
    let vScale := ch / img.height
    let scale := max hScale vScale
    let shiftX := (cw - img.width * scale) / 2
    let shiftY := (ch - img.height * scale) / 2
    [CanvasOp.clearRect 0 0 cw ch,
     CanvasOp.drawImage img 0 0 img.width img.height shiftX shiftY
       (img.width * scale) (img.height * scale)]

/-- The image element created for sequence index `i`: `new Image()` with
`img.src = imagePaths[i]`. Its eventual intrinsic dimensions are supplied by
the environment `dims`, and `fails i` says whether the network load fails
(leaving the element broken). -/
def mkImage (dims : ℕ → ℚ × ℚ) (fails : ℕ → Bool) (i : ℕ) : Img :=
  ⟨(dims i).1, (dims i).2, fails i⟩

/-- JS sparse-array index assignment `arr[i] = some img`: in range it
overwrites; past the end it pads with holes and extends. -/
def setSlot (arr : List (Option Img)) (i : ℕ) (img : Img) :
    List (Option Img) :=
  if i < arr.length then arr.set i (some img)
  else arr ++ List.replicate (i - arr.length) none ++ [some img]

/-- `loadBatch(startIndex)`: for `i` from `startIndex` to
`min(startIndex + BATCH_SIZE, imagePaths.length) - 1`, create the image for
index `i` and store it at `loadedImages[i]` — note the source stores the
element unconditionally, before and regardless of load success
(`img.onerror` merely resolves the promise). -/
def loadBatch (dims : ℕ → ℚ × ℚ) (fails : ℕ → Bool)
    (arr : List (Option Img)) (startIndex : ℕ) : List (Option Img) :=
  (List.range' startIndex (min (startIndex + BATCH_SIZE) N - startIndex)).foldl
    (fun a i => setSlot a i (mkImage dims fails i)) arr

/-- The `loadAllImages` loop: for i from 0 in steps of BATCH_SIZE while
i < imagePaths.length, await `loadBatch(i)` and then publish
`setImages([...loadedImages])`. Returns the list of published snapshots in
publication order. The first argument is a loop bound (any value ≥ the
number of iterations; `N` is used), present only to make the recursion
structural. -/
def loadLoop (dims : ℕ → ℚ × ℚ) (fails : ℕ → Bool) :
    ℕ → ℕ → List (Option Img) → List (List (Option Img))
  | 0, _, _ => []
  | fuel + 1, i, arr =>
    if i < N then
      let arr2 := loadBatch dims fails arr i
      arr2 :: loadLoop dims fails fuel (i + BATCH_SIZE) arr2
    else []

/-- All snapshots published by `loadAllImages`, starting from the empty
`loadedImages` array. -/
def snapshots (dims : ℕ → ℚ × ℚ) (fails : ℕ → Bool) :
    List (List (Option Img)) :=
  loadLoop dims fails N 0 []

/-- Events of the load phase: issuing a batch of concurrent requests
(batch number, start index, size), and publishing the settled batch's
snapshot (`setImages`). -/
inductive LoadEvent where
  | issue (batch start size : ℕ)
  | publish (batch : ℕ)
deriving DecidableEq

/-- Event trace of the `loadAllImages` loop: each iteration issues its
batch, awaits the barrier, then publishes — strictly sequentially. -/
def loadTrace : ℕ → ℕ → ℕ → List LoadEvent
  | 0, _, _ => []
  | fuel + 1, k, i =>
    if i < N then
      LoadEvent.issue k i (min (i + BATCH_SIZE) N - i) ::
        LoadEvent.publish k :: loadTrace fuel (k + 1) (i + BATCH_SIZE)
    else []

/-- The concrete event trace of the loader for the 144-frame sequence. -/
def theTrace : List LoadEvent := loadTrace N 0 0

/-- The issued batches of a trace, in issue order. -/
def issueList (t : List LoadEvent) : List (ℕ × ℕ × ℕ) :=
  t.filterMap fun e =>
    match e with
    | LoadEvent.issue k s n => some (k, s, n)
    | _ => none

/-- Observable outcome of one run of the canvas-rendering effect: whether a
resize listener was installed, whether it subscribed to frame-index changes,
whether it resized the canvas, and the drawing calls issued synchronously
(the initial `handleResize()` call renders the current index). -/
structure EffectResult where
  resizeListener : Bool
  frameSub : Bool
  resized : Bool
  ops : List CanvasOp
deriving DecidableEq

/-- The canvas-rendering effect: `if (images.length === 0 ||
!canvasRef.current) return; const ctx = canvas.getContext("2d"); if (!ctx)
return;` then install the resize listener, run `handleResize()` (resize +
render of the current index) and subscribe to `frameIndex` changes. -/
def canvasEffect (images : List (Option Img)) (canvasMounted ctxOk : Bool)
    (vw vh : ℚ) (currentIndex : ℚ) : EffectResult :=
  if images.length = 0 ∨ canvasMounted = false then ⟨false, false, false, []⟩
  else if ctxOk = false then ⟨false, false, false, []⟩
  else ⟨true, true, true, render images vw vh currentIndex⟩

/-- The state of loadedImages once exactly the indices below m have been
filled with their image elements. -/
def filled (dims : ℕ → ℚ × ℚ) (fails : ℕ → Bool) (m : ℕ) :
    List (Option Img) :=
  (List.range m).map (fun i => some (mkImage dims fails i))

/-- A membership-style check of the batch-size edge case, as a boolean over
events: an issued batch never extends past the end of the path list. -/
def issueWithinRemaining : LoadEvent → Bool
  | LoadEvent.issue _ s n => decide (s + n ≤ N)
  | LoadEvent.publish _ => true

/-- Default value used when reading the path list. -/
def noPath : String := ""

/-- Concrete load environment in which every image is 800 by 600 and the
load of index 36 (file 00037.png) fails. -/
def failDims : ℕ → ℚ × ℚ := fun _ => (800, 600)

/-- Failure predicate: exactly index 36 fails to load. -/
def fail36 : ℕ → Bool := fun i => i == 36

/-- Concrete load environment for witnesses: every image is 2 by 3 and no
load fails. -/
def wDims : ℕ → ℚ × ℚ := fun _ => (2, 3)

/-- Failure predicate for witnesses: no load fails. -/
def wFails : ℕ → Bool := fun _ => false

/-! Helper lemmas. -/

theorem jsRound_nonneg (q : ℚ) (h : 0 ≤ q) : 0 ≤ jsRound q :=
  Int.le_floor.mpr (by push_cast; linarith)

theorem jsRound_le (q : ℚ) (B : ℤ) (h : q ≤ (B : ℚ)) : jsRound q ≤ B := by
  have hlt : jsRound q < B + 1 := Int.floor_lt.mpr (by push_cast; linarith)
  omega

theorem jsRound_zero : jsRound 0 = 0 := by norm_num [jsRound]

theorem render_of_some (images : List (Option Img)) (cw ch index : ℚ)
    (img : Img) (h : arrGet images (jsRound index) = some img) :
    render images cw ch index =
      [CanvasOp.clearRect 0 0 cw ch,
       CanvasOp.drawImage img 0 0 img.width img.height
         ((cw - img.width * coverScale cw ch img.width img.height) / 2)
         ((ch - img.height * coverScale cw ch img.width img.height) / 2)
         (img.width * coverScale cw ch img.width img.height)
         (img.height * coverScale cw ch img.width img.height)] := by
  unfold render
  rw [h]
  rfl

theorem render_of_none (images : List (Option Img)) (cw ch index : ℚ)
    (h : arrGet images (jsRound index) = none) :
    render images cw ch index = [] := by
  unfold render
  rw [h]

/-! Claim theorems. -/

/-- C1: for every progress value p in [0,1] the frame index selected for
rendering equals round(p * 143), for every rational p (spring overshoot
included) the selected index lies within [0, 143], and p = 0 yields index 0
while p = 1 yields index 143. -/
theorem frame_selector_round_and_bounds :
    (∀ p : ℚ, 0 ≤ p → p ≤ 1 → selectedFrame p = jsRound (p * 143)) ∧
    (∀ p : ℚ, 0 ≤ selectedFrame p ∧ selectedFrame p ≤ 143) ∧
    selectedFrame 0 = 0 ∧ selectedFrame 1 = 143 := by
  refine ⟨?_, ?_, ?_, ?_⟩
  · intro p h0 h1
    simp only [selectedFrame, frameIndexValue, piecewise]
    split_ifs with ha
    · have hp : p = 0 := le_antisymm ha h0
      subst hp
      norm_num
    · congr 1
      ring
  · intro p
    simp only [selectedFrame, frameIndexValue, piecewise]
    split_ifs with ha hb
    · exact ⟨jsRound_nonneg 0 le_rfl, jsRound_le 0 143 (by norm_num)⟩
    · have hval : (0 + (p - 0) / (1 - 0) * (143 - 0) : ℚ) = p * 143 := by ring
      rw [hval]
      constructor
      · exact jsRound_nonneg _ (by nlinarith)
      · exact jsRound_le _ 143 (by push_cast; nlinarith)
    · exact ⟨jsRound_nonneg 143 (by norm_num), jsRound_le 143 143 (by norm_num)⟩
  · simp only [selectedFrame, frameIndexValue, piecewise]
    norm_num [jsRound]
  · simp only [selectedFrame, frameIndexValue, piecewise]
    norm_num [jsRound]

theorem frame_selector_round_and_bounds_witness :
    0 ≤ (1/2 : ℚ) ∧ (1/2 : ℚ) ≤ 1 ∧
      selectedFrame (1/2) = jsRound ((1/2) * 143) :=
  ⟨by norm_num, by norm_num,
    frame_selector_round_and_bounds.1 (1/2) (by norm_num) (by norm_num)⟩

/-- C4: rendering a loaded frame first clears and then paints with the
uniform cover scale factor max(cw/iw, ch/ih); the scaled width and height
are at least the surface dimensions with at least one exact equality, and
the image is centered on both axes. -/
theorem render_cover_fit (cw ch : ℚ) (img : Img)
    (hcw : 0 < cw) (hch : 0 < ch)
    (hiw : 0 < img.width) (hih : 0 < img.height) :
    render [some img] cw ch 0 =
      [CanvasOp.clearRect 0 0 cw ch,
       CanvasOp.drawImage img 0 0 img.width img.height
         ((cw - img.width * coverScale cw ch img.width img.height) / 2)
         ((ch - img.height * coverScale cw ch img.width img.height) / 2)
         (img.width * coverScale cw ch img.width img.height)
         (img.height * coverScale cw ch img.width img.height)] ∧
    cw ≤ img.width * coverScale cw ch img.width img.height ∧
    ch ≤ img.height * coverScale cw ch img.width img.height ∧
    (img.width * coverScale cw ch img.width img.height = cw ∨
      img.height * coverScale cw ch img.width img.height = ch) := by
  have hget : arrGet [some img] (jsRound 0) = some img := by
    rw [jsRound_zero]
    rfl
  refine ⟨render_of_some _ cw ch 0 img hget, ?_, ?_, ?_⟩
  · have h1 : cw / img.width ≤ coverScale cw ch img.width img.height :=
      le_max_left _ _
    have h2 := (div_le_iff hiw).mp h1
    linarith [h2]
  · have h1 : ch / img.height ≤ coverScale cw ch img.width img.height :=
      le_max_right _ _
    have h2 := (div_le_iff hih).mp h1
    linarith [h2]
  · rcases max_choice (cw / img.width) (ch / img.height) with h | h
    · left
      rw [coverScale, h, mul_comm]
      exact div_mul_cancel₀ cw (ne_of_gt hiw)
    · right
      rw [coverScale, h, mul_comm]
      exact div_mul_cancel₀ ch (ne_of_gt hih)

theorem render_cover_fit_witness :
    (0:ℚ) < 4 ∧ (0:ℚ) < 3 ∧ (0:ℚ) < 2 ∧ (0:ℚ) < 1 ∧
    (render [some ⟨2, 1, false⟩] 4 3 0 =
      [CanvasOp.clearRect 0 0 4 3,
       CanvasOp.drawImage ⟨2, 1, false⟩ 0 0 2 1
         ((4 - 2 * coverScale 4 3 2 1) / 2)
         ((3 - 1 * coverScale 4 3 2 1) / 2)
         (2 * coverScale 4 3 2 1)
         (1 * coverScale 4 3 2 1)] ∧
     (4:ℚ) ≤ 2 * coverScale 4 3 2 1 ∧
     (3:ℚ) ≤ 1 * coverScale 4 3 2 1 ∧
     (2 * coverScale 4 3 2 1 = (4:ℚ) ∨ 1 * coverScale 4 3 2 1 = (3:ℚ))) :=
  ⟨by norm_num, by norm_num, by norm_num, by norm_num,
    render_cover_fit 4 3 ⟨2, 1, false⟩ (by norm_num) (by norm_num)
      (by norm_num) (by norm_num)⟩

/-- C5: invoking render on a hole index issues no drawing call at all — no
clear and no paint — and leaves the prior canvas content unchanged. -/
theorem render_hole_skip (images : List (Option Img)) (cw ch p : ℚ)
    (c : CanvasContent) (h : arrGet images (jsRound p) = none) :
    render images cw ch p = [] ∧
      runOps c (render images cw ch p) = c := by
  have h2 : render images cw ch p = [] := render_of_none images cw ch p h
  exact ⟨h2, by rw [h2]; rfl⟩

theorem render_hole_skip_witness :
    arrGet [none, some ⟨2, 2, false⟩] (jsRound 0) = none ∧
    (render [none, some ⟨2, 2, false⟩] 10 10 0 = [] ∧
      runOps CanvasContent.initial
        (render [none, some ⟨2, 2, false⟩] 10 10 0) =
        CanvasContent.initial) := by
  have hp : arrGet [none, some ⟨2, 2, false⟩] (jsRound 0) = none := by
    rw [jsRound_zero]
    rfl
  exact ⟨hp, render_hole_skip _ 10 10 0 CanvasContent.initial hp⟩

/-- C10: while the published image list is empty, the canvas-rendering
effect is a complete no-op: no resize listener, no frame-index
subscription, no resize and no drawing call, for any mount state, context
availability, viewport size and scroll progress. -/
theorem empty_images_effect_noop :
    ∀ (canvasMounted ctxOk : Bool) (vw vh idx : ℚ),
      canvasEffect [] canvasMounted ctxOk vw vh idx =
        { resizeListener := false, frameSub := false,
          resized := false, ops := [] } := by
  intro cm hctx vw vh idx
  simp [canvasEffect]

/-- C6: each of the three overlay opacity functions is 0 at progress 0 and
at progress 1, is 0 everywhere in [0,1] outside its configured window
([0, 0.35], [0.35, 0.7], [0.7, 1] respectively), reaches exactly 1
throughout its hold sub-range, and at progress 0.5 block 2 has opacity 1
while blocks 1 and 3 have opacity 0. -/
theorem overlay_opacity_windows :
    (text1Opacity 0 = 0 ∧ text1Opacity 1 = 0 ∧
     text2Opacity 0 = 0 ∧ text2Opacity 1 = 0 ∧
     text3Opacity 0 = 0 ∧ text3Opacity 1 = 0) ∧
    (∀ p : ℚ, 0 ≤ p → p ≤ 1 → (p < 0 ∨ 0.35 < p) → text1Opacity p = 0) ∧
    (∀ p : ℚ, 0 ≤ p → p ≤ 1 → (p < 0.35 ∨ 0.7 < p) → text2Opacity p = 0) ∧
    (∀ p : ℚ, 0 ≤ p → p ≤ 1 → (p < 0.7 ∨ 1 < p) → text3Opacity p = 0) ∧
    (∀ p : ℚ, 0.15 ≤ p → p ≤ 0.25 → text1Opacity p = 1) ∧
    (∀ p : ℚ, 0.5 ≤ p → p ≤ 0.6 → text2Opacity p = 1) ∧
    (∀ p : ℚ, 0.85 ≤ p → p ≤ 0.95 → text3Opacity p = 1) ∧
    (text2Opacity 0.5 = 1 ∧ text1Opacity 0.5 = 0 ∧ text3Opacity 0.5 = 0) := by
  refine ⟨⟨?_, ?_, ?_, ?_, ?_, ?_⟩, ?_, ?_, ?_, ?_, ?_, ?_, ?_, ?_, ?_⟩
  · norm_num [text1Opacity, piecewise]
  · norm_num [text1Opacity, piecewise]
  · norm_num [text2Opacity, piecewise]
  · norm_num [text2Opacity, piecewise]
  · norm_num [text3Opacity, piecewise]
  · norm_num [text3Opacity, piecewise]
  · intro p h0 h1 h
    simp only [text1Opacity, piecewise]
    rcases h with h | h <;>
      split_ifs <;> first | rfl | linarith | (field_simp; linarith)
  · intro p h0 h1 h
    simp only [text2Opacity, piecewise]
    rcases h with h | h <;>
      split_ifs <;> first | rfl | linarith | (field_simp; linarith)
  · intro p h0 h1 h
    simp only [text3Opacity, piecewise]
    rcases h with h | h <;>
      split_ifs <;> first | rfl | linarith | (field_simp; linarith)
  · intro p h1 h2
    simp only [text1Opacity, piecewise]
    split_ifs <;> first | linarith | (field_simp; linarith) | norm_num
  · intro p h1 h2
    simp only [text2Opacity, piecewise]
    split_ifs <;> first | linarith | (field_simp; linarith) | norm_num
  · intro p h1 h2
    simp only [text3Opacity, piecewise]
    split_ifs <;> first | linarith | (field_simp; linarith) | norm_num
  · norm_num [text2Opacity, piecewise]
  · norm_num [text1Opacity, piecewise]
  · norm_num [text3Opacity, piecewise]

theorem overlay_opacity_windows_witness :
    text2Opacity 0.55 = 1 ∧ text1Opacity 0.8 = 0 :=
  ⟨overlay_opacity_windows.2.2.2.2.2.1 0.55 (by norm_num) (by norm_num),
   overlay_opacity_windows.2.1 0.8 (by norm_num) (by norm_num)
     (Or.inr (by norm_num))⟩

/-- C8: each overlay block's vertical offset maps its fade-in start to +50,
its hold point to 0 and its fade-out end to -50, interpolating linearly on
each of the two segments of the fade-in → hold → fade-out arc. -/
theorem overlay_y_arc :
    (text1Y 0 = 50 ∧ text1Y 0.15 = 0 ∧ text1Y 0.35 = -50) ∧
    (text2Y 0.35 = 50 ∧ text2Y 0.5 = 0 ∧ text2Y 0.7 = -50) ∧
    (text3Y 0.7 = 50 ∧ text3Y 0.85 = 0 ∧ text3Y 1 = -50) ∧
    (∀ p : ℚ, 0 ≤ p → p ≤ 0.15 →
      text1Y p = 50 - 50 * ((p - 0) / (0.15 - 0))) ∧
    (∀ p : ℚ, 0.15 ≤ p → p ≤ 0.35 →
      text1Y p = 0 - 50 * ((p - 0.15) / (0.35 - 0.15))) ∧
    (∀ p : ℚ, 0.35 ≤ p → p ≤ 0.5 →
      text2Y p = 50 - 50 * ((p - 0.35) / (0.5 - 0.35))) ∧
    (∀ p : ℚ, 0.5 ≤ p → p ≤ 0.7 →
      text2Y p = 0 - 50 * ((p - 0.5) / (0.7 - 0.5))) ∧
    (∀ p : ℚ, 0.7 ≤ p → p ≤ 0.85 →
      text3Y p = 50 - 50 * ((p - 0.7) / (0.85 - 0.7))) ∧
    (∀ p : ℚ, 0.85 ≤ p → p ≤ 1 →
      text3Y p = 0 - 50 * ((p - 0.85) / (1 - 0.85))) := by
  refine ⟨⟨?_, ?_, ?_⟩, ⟨?_, ?_, ?_⟩, ⟨?_, ?_, ?_⟩, ?_, ?_, ?_, ?_, ?_, ?_⟩
  · norm_num [text1Y, piecewise]
  · norm_num [text1Y, piecewise]
  · norm_num [text1Y, piecewise]
  · norm_num [text2Y, piecewise]
  · norm_num [text2Y, piecewise]
  · norm_num [text2Y, piecewise]
  · norm_num [text3Y, piecewise]
  · norm_num [text3Y, piecewise]
  · norm_num [text3Y, piecewise]
  · intro p h1 h2
    simp only [text1Y, piecewise]
    split_ifs <;> first | linarith | (field_simp; linarith) | (field_simp; ring)
  · intro p h1 h2
    simp only [text1Y, piecewise]
    split_ifs <;> first | linarith | (field_simp; linarith) | (field_simp; ring)
  · intro p h1 h2
    simp only [text2Y, piecewise]
    split_ifs <;> first | linarith | (field_simp; linarith) | (field_simp; ring)
  · intro p h1 h2
    simp only [text2Y, piecewise]
    split_ifs <;> first | linarith | (field_simp; linarith) | (field_simp; ring)
  · intro p h1 h2
    simp only [text3Y, piecewise]
    split_ifs <;> first | linarith | (field_simp; linarith) | (field_simp; ring)
  · intro p h1 h2
    simp only [text3Y, piecewise]
    split_ifs <;> first | linarith | (field_simp; linarith) | (field_simp; ring)

theorem overlay_y_arc_witness :
    text1Y 0.05 = 50 - 50 * (((0.05:ℚ) - 0) / (0.15 - 0)) ∧
      text2Y 0.6 = 0 - 50 * (((0.6:ℚ) - 0.5) / (0.7 - 0.5)) :=
  ⟨overlay_y_arc.2.2.2.1 0.05 (by norm_num) (by norm_num),
   overlay_y_arc.2.2.2.2.2.2.1 0.6 (by norm_num) (by norm_num)⟩

/-! Loader lemmas: each published snapshot is a fully filled prefix. -/

theorem filled_length (dims : ℕ → ℚ × ℚ) (fails : ℕ → Bool) (m : ℕ) :
    (filled dims fails m).length = m := by
  simp [filled]

theorem filled_succ (dims : ℕ → ℚ × ℚ) (fails : ℕ → Bool) (m : ℕ) :
    filled dims fails (m + 1) =
      filled dims fails m ++ [some (mkImage dims fails m)] := by
  simp [filled, List.range_succ]

theorem setSlot_filled (dims : ℕ → ℚ × ℚ) (fails : ℕ → Bool) (m : ℕ) :
    setSlot (filled dims fails m) m (mkImage dims fails m) =
      filled dims fails (m + 1) := by
  simp [setSlot, filled_length, filled_succ]

theorem foldl_setSlot_range' (dims : ℕ → ℚ × ℚ) (fails : ℕ → Bool)
    (len : ℕ) :
    ∀ start : ℕ,
      (List.range' start len).foldl
        (fun a i => setSlot a i (mkImage dims fails i))
        (filled dims fails start) =
      filled dims fails (start + len) := by
  induction len with
  | zero => intro start; simp
  | succ n ih =>
    intro start
    rw [List.range'_succ]
    simp only [List.foldl_cons]
    rw [setSlot_filled]
    have h2 := ih (start + 1)
    rw [h2]
    ring_nf

theorem loadBatch_filled (dims : ℕ → ℚ × ℚ) (fails : ℕ → Bool)
    (i : ℕ) (hi : i ≤ N) :
    loadBatch dims fails (filled dims fails i) i =
      filled dims fails (min (i + BATCH_SIZE) N) := by
  unfold loadBatch
  rw [foldl_setSlot_range']
  congr 1
  omega

theorem getD_filled (dims : ℕ → ℚ × ℚ) (fails : ℕ → Bool) (m j : ℕ) :
    (filled dims fails m).getD j none =
      if j < m then some (mkImage dims fails j) else none := by
  simp only [filled]
  by_cases h : j < m
  · rw [List.getD_eq_getElem?_getD]
    simp [List.getElem?_map, List.getElem?_range, h]
  · rw [List.getD_eq_getElem?_getD]
    rw [List.getElem?_eq_none (by simpa using Nat.le_of_not_lt h)]
    simp [h]

theorem filled_mono (dims : ℕ → ℚ × ℚ) (fails : ℕ → Bool)
    (m m' j : ℕ) (hm : m ≤ m') (img : Img)
    (h : (filled dims fails m).getD j none = some img) :
    (filled dims fails m').getD j none = some img := by
  rw [getD_filled] at h ⊢
  by_cases h1 : j < m
  · rw [if_pos h1] at h
    rw [if_pos (lt_of_lt_of_le h1 hm)]
    exact h
  · rw [if_neg h1] at h
    exact absurd h (by simp)

theorem loadLoop_stop (dims : ℕ → ℚ × ℚ) (fails : ℕ → Bool)
    (fuel i : ℕ) (arr : List (Option Img)) (hi : ¬ i < N) :
    loadLoop dims fails fuel i arr = [] := by
  cases fuel <;> simp [loadLoop, hi]

/-- Closed form of each published snapshot: snapshot k of the run that
starts at index i with the prefix below i already filled is the filled
prefix below min(i + BATCH_SIZE*(k+1), N). -/
theorem loadLoop_getD (dims : ℕ → ℚ × ℚ) (fails : ℕ → Bool) :
    ∀ (fuel i k : ℕ), i ≤ N →
      k < (loadLoop dims fails fuel i (filled dims fails i)).length →
      (loadLoop dims fails fuel i (filled dims fails i)).getD k [] =
        filled dims fails (min (i + BATCH_SIZE * (k + 1)) N) := by
  intro fuel
  induction fuel with
  | zero => intro i k _ hk; simp [loadLoop] at hk
  | succ n ih =>
    intro i k hiN hk
    simp only [loadLoop] at hk ⊢
    by_cases hi : i < N
    · rw [if_pos hi] at hk ⊢
      rw [loadBatch_filled dims fails i hiN] at hk ⊢
      cases k with
      | zero =>
        simp
      | succ k' =>
        simp only [List.getD_cons_succ]
        by_cases hstep : i + BATCH_SIZE ≤ N
        · have hmin : min (i + BATCH_SIZE) N = i + BATCH_SIZE := by omega
          rw [hmin] at hk ⊢
          have h3 := ih (i + BATCH_SIZE) k' hstep (by
            simpa using Nat.lt_of_succ_lt_succ (by simpa using hk))
          have harith : i + BATCH_SIZE + BATCH_SIZE * (k' + 1) =
              i + BATCH_SIZE * (k' + 1 + 1) := by ring
          rw [harith] at h3
          exact h3
        · have hmin : min (i + BATCH_SIZE) N = N := by omega
          rw [hmin] at hk ⊢
          rw [loadLoop_stop dims fails n (i + BATCH_SIZE) _ (by omega)] at hk
          simp at hk
    · rw [if_neg hi] at hk
      simp at hk

theorem snapshots_getD (dims : ℕ → ℚ × ℚ) (fails : ℕ → Bool) (k : ℕ)
    (hk : k < (snapshots dims fails).length) :
    (snapshots dims fails).getD k [] =
      filled dims fails (min (BATCH_SIZE * (k + 1)) N) := by
  have h0 : filled dims fails 0 = [] := by simp [filled]
  have h1 := loadLoop_getD dims fails N 0 k (by omega)
  rw [h0] at h1
  simpa [snapshots] using h1 hk

/-- C7: the published Loaded Image Set only grows — every filled index of a
published snapshot is present, with the identical image entry, in the next
published snapshot, for every load outcome. In the embedding the snapshot
sequence is produced exclusively by the batch loader, which only fills
index slots in place. -/
theorem snapshot_growth (dims : ℕ → ℚ × ℚ) (fails : ℕ → Bool)
    (k j : ℕ) (img : Img)
    (hk : k + 1 < (snapshots dims fails).length)
    (h : ((snapshots dims fails).getD k []).getD j none = some img) :
    ((snapshots dims fails).getD (k + 1) []).getD j none = some img := by
  rw [snapshots_getD dims fails k (by omega)] at h
  rw [snapshots_getD dims fails (k + 1) hk]
  refine filled_mono dims fails _ _ j ?_ img h
  exact min_le_min (Nat.mul_le_mul_left _ (by omega)) le_rfl

theorem snapshot_growth_witness :
    (0 + 1 < (snapshots wDims wFails).length ∧
      ((snapshots wDims wFails).getD 0 []).getD 0 none =
        some ⟨2, 3, false⟩) ∧
    ((snapshots wDims wFails).getD 1 []).getD 0 none =
      some ⟨2, 3, false⟩ := by
  have h1 : 0 + 1 < (snapshots wDims wFails).length := by decide
  have h2 : ((snapshots wDims wFails).getD 0 []).getD 0 none =
      some ⟨2, 3, false⟩ := by decide
  exact ⟨⟨h1, h2⟩, snapshot_growth wDims wFails 0 0 ⟨2, 3, false⟩ h1 h2⟩

/-- C2 (code bug): when the load of index 36 fails, the source still stores
the broken image element in slot 36 — it assigns loadedImages at index i
before the load settles and keeps it on error — so in the final published
snapshot the slot is occupied rather than empty, and a render request for
frame 36 does not skip: it passes the guard and its first drawing call
clears the canvas (after which drawImage is attempted on a broken
element). The batch structure itself does continue unaffected: all 29
snapshots are published and the final one has all 144 slots occupied. -/
theorem failed_load_fills_slot_and_render_clears :
    (snapshots failDims fail36).length = 29 ∧
    ((snapshots failDims fail36).getD 28 []).length = 144 ∧
    ((snapshots failDims fail36).getD 28 []).getD 36 none =
      some ⟨800, 600, true⟩ ∧
    render ((snapshots failDims fail36).getD 28 []) 1000 700 36 ≠ [] ∧
    (render ((snapshots failDims fail36).getD 28 []) 1000 700 36).head? =
      some (CanvasOp.clearRect 0 0 1000 700) := by
  have hslot : ((snapshots failDims fail36).getD 28 []).getD 36 none =
      some ⟨800, 600, true⟩ := by decide
  have hr : jsRound 36 = 36 := by norm_num [jsRound]
  have hget : arrGet ((snapshots failDims fail36).getD 28 []) (jsRound 36) =
      some ⟨800, 600, true⟩ := by
    rw [hr]
    unfold arrGet
    norm_num
    exact hslot
  have hrender := render_of_some _ 1000 700 36 _ hget
  refine ⟨by decide, by decide, hslot, ?_, ?_⟩
  · rw [hrender]
    simp
  · rw [hrender]
    rfl

/-- C3: the loader issues exactly 29 batches, the first 28 of size 5 and
the final one of size 4, in strictly increasing index order; no batch
extends past the remaining sequence; every batch is issued before its own
publish, and each publish occurs before the next batch is issued (full
barrier) and before the next publish. -/
theorem batch_schedule :
    issueList theTrace =
      (List.range 29).map
        (fun k => (k, BATCH_SIZE * k, if k = 28 then 4 else BATCH_SIZE)) ∧
    theTrace.all issueWithinRemaining = true ∧
    (∀ k, k < 29 →
      theTrace.indexOf
          (LoadEvent.issue k (BATCH_SIZE * k) (if k = 28 then 4 else BATCH_SIZE)) <
        theTrace.indexOf (LoadEvent.publish k)) ∧
    (∀ k, k < 28 →
      theTrace.indexOf (LoadEvent.publish k) <
        theTrace.indexOf
          (LoadEvent.issue (k + 1) (BATCH_SIZE * (k + 1))
            (if k + 1 = 28 then 4 else BATCH_SIZE))) ∧
    (∀ k, k < 28 →
      theTrace.indexOf (LoadEvent.publish k) <
        theTrace.indexOf (LoadEvent.publish (k + 1))) := by
  refine ⟨by decide, by decide, by decide, by decide, by decide⟩

theorem batch_schedule_witness :
    theTrace.indexOf (LoadEvent.publish 0) <
      theTrace.indexOf (LoadEvent.publish 1) :=
  batch_schedule.2.2.2.2 0 (by norm_num)

/-- C9: the path list has exactly 144 entries; entry i is the base prefix
followed by i+1 rendered as a zero-padded five-digit decimal numeral and
the png extension; the entries run from 00001.png up to 00144.png. -/
theorem image_paths_shape :
    imagePaths.length = 144 ∧
    (∀ i, i < 144 →
      imagePaths.getD i noPath =
        "/headphone-seqs/" ++ padStart (toString (i + 1)) 5 '0' ++ ".png" ∧
      (padStart (toString (i + 1)) 5 '0').length = 5 ∧
      ((padStart (toString (i + 1)) 5 '0').data.all Char.isDigit) = true ∧
      (padStart (toString (i + 1)) 5 '0').data.foldl
        (fun acc c => 10 * acc + (c.toNat - 48)) 0 = i + 1) ∧
    imagePaths.getD 0 noPath = "/headphone-seqs/00001.png" ∧
    imagePaths.getD 143 noPath = "/headphone-seqs/00144.png" := by
  refine ⟨by decide, by decide, by decide, by decide⟩

theorem image_paths_shape_witness :
    (7 : ℕ) < 144 ∧ (padStart (toString (7 + 1)) 5 '0').length = 5 :=
  ⟨by norm_num, (image_paths_shape.2.1 7 (by norm_num)).2.1⟩

end ZenithX
